import Mathlib

/-!
Shallow embedding of `jinja2/environment.py` (the Jinja 1.0 environment
module): the `Environment` resolution and template-loading entry points, the
`Template` execution engine, and the `TemplateStream` buffering layer.

Python machine model used throughout:
* values are modelled by their access capabilities (attribute table, optional
  item table) plus the `Undefined` sentinel;
* dicts are association lists where a later binding for a key wins, matching
  `dict.update` semantics;
* raising an exception is an `Except`/`Option` error result;
* generators are finite lists of the items they yield, and pulling from a
  generator is explicit state passing on the remaining list.
-/

namespace Jinja

/-- Keys usable for subscription: Python strings or integers. -/
inductive Key where
  | str (s : String)
  | int (n : Int)
deriving DecidableEq

/-- Python `str(argument)` coercion of a key (decimal form for integers). -/
def Key.toStr : Key → String
  | .str s => s
  | .int n => toString n

/-- Python values, modelled by their access capabilities: an `obj` carries an
attribute table and, when the value is subscriptable, an item table; `undef`
is the runtime's `Undefined` sentinel carrying the source object and the
failed key (every undefined-policy variant carries this same pair, the policy
only changes behaviour on later use). -/
inductive Value where
  | obj (attrs : List (String × Value)) (items : Option (List (Key × Value)))
  | undef (src : Value) (key : Key)

/-- Lookup in an attribute table. -/
def lookupStr : List (String × Value) → String → Option Value
  | [], _ => none
  | (k, v) :: rest, key => if k = key then some v else lookupStr rest key

/-- Lookup in an item table. -/
def lookupKey : List (Key × Value) → Key → Option Value
  | [], _ => none
  | (k, v) :: rest, key => if k = key then some v else lookupKey rest key

/-- The exception classes the two access primitives can raise; all of them are
caught by `Environment.subscribe` (`AttributeError`/`UnicodeError` around
attribute access, `TypeError`/`LookupError` around item access). -/
inductive AccessError where
  | attributeError
  | typeError
  | lookupError
deriving DecidableEq

/-- Python `getattr(obj, name)` on the modelled values: looks the name up in
the attribute table; a missing attribute (and attribute access on an
`Undefined` sentinel) raises `AttributeError`. -/
def getattr : Value → String → Except AccessError Value
  | .obj attrs _, name =>
    match lookupStr attrs name with
    | some v => .ok v
    | none => .error .attributeError
  | .undef _ _, _ => .error .attributeError

/-- Python `obj[argument]`: raises `TypeError` when the value is not
subscriptable, `LookupError` (`KeyError`/`IndexError`) when the key is
absent from the item table. -/
def getitem : Value → Key → Except AccessError Value
  | .obj _ none, _ => .error .typeError
  | .obj _ (some items), k =>
    match lookupKey items k with
    | some v => .ok v
    | none => .error .lookupError
  | .undef _ _, _ => .error .typeError

/-- A Python dict with string keys, as an association list. -/
abbrev PyDict := List (String × Value)

/-- Dict lookup: a later binding for the same key wins, matching the
assignment order of `dict` construction and `dict.update`. -/
def dget : PyDict → String → Option Value
  | [], _ => none
  | (k0, v0) :: rest, k =>
    match dget rest k with
    | some v => some v
    | none => if k0 = k then some v0 else none

/-- Python `d.copy()` followed by `d.update(o)` (equivalently
`dict(d, **o)`): the bindings of `o` win. -/
def dupdate (d o : PyDict) : PyDict := d ++ o

/-- The first lookup result when present, otherwise the fallback. -/
def firstSome : Option Value → Option Value → Option Value
  | some v, _ => some v
  | none, b => b

/-- Whether a key occurs in the dict (`k in d`). -/
def hasKey (d : PyDict) (k : String) : Bool := d.any (fun e => e.1 == k)

/-- Whether `set(a) & set(b)` (on the key sets) is nonempty. -/
def keysOverlap (a b : PyDict) : Bool := a.any (fun e => hasKey b e.1)

/-- The fields of `Environment` the claims depend on.  The lexer and parser
configuration strings are omitted (those modules are outside this file) and
the loader, an external collaborator, is modelled by whether one is set. -/
structure Environment where
  optimized : Bool
  globals : PyDict
  hasLoader : Bool

/-- `Environment.subscribe`: attribute access under the coerced name
`str(argument)` first; on `AttributeError`/`UnicodeError`, item access under
the original, uncoerced `argument`; on `TypeError`/`LookupError`, the
`Undefined` sentinel `self.undefined(obj, argument)`. -/
def Environment.subscribe (_env : Environment) (obj : Value) (argument : Key) : Value :=
  match getattr obj argument.toStr with
  | .ok v => v
  | .error _ =>
    match getitem obj argument with
    | .ok v => v
    | .error _ => Value.undef obj argument

/-- `Environment.make_globals`: the environment globals themselves when `d`
is `None`, otherwise `dict(self.globals, **d)`. -/
def Environment.make_globals (env : Environment) (d : Option PyDict) : PyDict :=
  match d with
  | none => env.globals
  | some d => dupdate env.globals d

/-- `Environment.join_path`: lookups are relative to the loader root, so the
template name is returned unchanged. -/
def Environment.join_path (_env : Environment) (template _parent : String) : String :=
  template

/-- The exception `Environment.get_template` raises without a loader. -/
inductive EnvError where
  | typeError
deriving DecidableEq

/-- `Environment.get_template`: raises `TypeError` when no loader is set on
the environment; otherwise joins the name with the parent when one is given,
merges the globals, and calls `loader.load(self, name, globals)`.  The loader
is an external collaborator, so the model returns the `(name, globals)`
arguments of that call. -/
def Environment.get_template (env : Environment) (name : String)
    (parent : Option String) (globals : Option PyDict) :
    Except EnvError (String × PyDict) :=
  if env.hasLoader = false then .error .typeError
  else
    let name := match parent with
      | some p => env.join_path name p
      | none => name
    .ok (name, env.make_globals globals)

/-- The items a compiled root routine yields: the self-reference sentinel
(the generator hands out a reference to itself as its first item) and output
fragments. -/
inductive YieldItem where
  | streamRef
  | fragment (s : String)
deriving DecidableEq

/-- The text a yielded item contributes to the output.  A compiled root
routine yields only fragments after the initial sentinel, so `render` never
reaches the `streamRef` case. -/
def YieldItem.text : YieldItem → String
  | .streamRef => ""
  | .fragment s => s

/-- A compiled template: environment reference, merged globals snapshot, and
the compiled root routine, given by its fragment output per context (the
compiler that emits it is outside this module). -/
structure Template where
  environment : Environment
  globals : PyDict
  rootFrags : PyDict → List String

/-- Modelled from the spec: the code generator (`jinja2.compiler`, not part of
this module) emits a root routine that "yields a self-reference sentinel as
its first produced item" and then produces the output fragments. -/
def Template.root_render_func (t : Template) (context : PyDict) : List YieldItem :=
  YieldItem.streamRef :: (t.rootFrags context).map YieldItem.fragment

/-- Context assembly inside `Template.generate`: copy the template globals
and overlay the call-time locals (`dict(*args, **kwargs)`). -/
def Template.assembleContext (t : Template) (local_context : PyDict) : PyDict :=
  dupdate t.globals local_context

/-- The exceptions `Template.generate` can raise: the shadowing assertion,
and `StopIteration` should the root generator yield nothing at all. -/
inductive RenderError where
  | assertionError
  | stopIteration
deriving DecidableEq

/-- `Template.generate`: assembles the context; when the optimizer is enabled
(`__debug__` is true in a normal interpreter run) and the call-time locals
share a name with the template globals, raises `AssertionError` without ever
calling the root routine; otherwise drives the root routine and skips its
first item, the reference to the stream. -/
def Template.generate (t : Template) (local_context : PyDict) :
    Except RenderError (List YieldItem) :=
  let context := t.assembleContext local_context
  if t.environment.optimized && keysOverlap local_context t.globals then
    .error .assertionError
  else
    match t.root_render_func context with
    | [] => .error .stopIteration
    | _ :: rest => .ok rest

/-- Concatenation of a fragment sequence (`u''.join`). -/
def concatAll : List String → String
  | [] => ""
  | s :: rest => s ++ concatAll rest

/-- `Template.render`: the concatenation of the sequence `generate`
produces. -/
def Template.render (t : Template) (local_context : PyDict) :
    Except RenderError String :=
  (t.generate local_context).map (fun items => concatAll (items.map YieldItem.text))

/-- The pull function stored in `TemplateStream._next`: either `gen.next`
directly, or the `buffering_next` closure with its buffer size. -/
inductive PullMode where
  | direct
  | buffering (size : Nat)
deriving DecidableEq

/-- `TemplateStream` state: the remaining upstream fragments, the `buffered`
flag, and the active pull function. -/
structure TemplateStream where
  gen : List String
  buffered : Bool
  pull : PullMode
deriving DecidableEq

/-- `TemplateStream.__init__`: wraps a generator, initially unbuffered with
`gen.next` as the pull function. -/
def TemplateStream.init (gen : List String) : TemplateStream :=
  { gen := gen, buffered := false, pull := .direct }

/-- `Template.stream`: wraps the sequence `generate` produces in a
`TemplateStream`. -/
def Template.stream (t : Template) (local_context : PyDict) :
    Except RenderError TemplateStream :=
  (t.generate local_context).map
    (fun items => TemplateStream.init (items.map YieldItem.text))

/-- Python truthiness of a fragment (`if item:`): nonempty. -/
def truthy (s : String) : Bool := s != ""

/-- The loop of the `buffering_next` closure.  `buf` is the accumulated
buffer (kept reversed, `push` conses) and `c` the count of collected
fragments; each iteration pulls one upstream item, pushes and counts it when
it is truthy, and stops with the joined buffer once `size` fragments are
collected, leaving the rest upstream.  On upstream exhaustion the pull
re-raises `StopIteration` (`none`) when nothing was collected, otherwise it
returns the joined buffer. -/
def buffering_loop (size : Nat) : List String → List String → Nat →
    Option (String × List String)
  | [], buf, c => if c = 0 then none else some (concatAll buf.reverse, [])
  | item :: rest, buf, c =>
    if truthy item then
      if size ≤ c + 1 then some (concatAll (item :: buf).reverse, rest)
      else buffering_loop size rest (item :: buf) (c + 1)
    else
      if size ≤ c then some (concatAll buf.reverse, rest)
      else buffering_loop size rest buf c

/-- One call of the `buffering_next` closure on the remaining upstream
fragments; `none` is `StopIteration`, otherwise the coalesced fragment and
what remains upstream. -/
def buffering_next (size : Nat) (gen : List String) :
    Option (String × List String) :=
  buffering_loop size gen [] 0

/-- The exception `enable_buffering` raises on an undersized buffer. -/
inductive StreamError where
  | valueError
deriving DecidableEq

/-- `TemplateStream.disable_buffering`: reattach `gen.next` and clear the
`buffered` flag. -/
def TemplateStream.disable_buffering (s : TemplateStream) : TemplateStream :=
  { s with pull := .direct, buffered := false }

/-- `TemplateStream.enable_buffering`: `size <= 1` raises `ValueError` before
any state change; otherwise sets the `buffered` flag and installs the
`buffering_next` closure.  The raise-or-unit outcome is returned alongside
the (possibly updated) stream state. -/
def TemplateStream.enable_buffering (s : TemplateStream) (size : Nat) :
    Except StreamError Unit × TemplateStream :=
  if size ≤ 1 then (.error .valueError, s)
  else (.ok (), { s with buffered := true, pull := .buffering size })

/-- One pull from the stream (`TemplateStream.next`, i.e. `self._next()`):
`none` is `StopIteration`, otherwise the yielded fragment and the successor
state. -/
def TemplateStream.nextPull (s : TemplateStream) :
    Option (String × TemplateStream) :=
  match s.pull with
  | .direct =>
    match s.gen with
    | [] => none
    | x :: rest => some (x, { s with gen := rest })
  | .buffering size =>
    match buffering_next size s.gen with
    | none => none
    | some (ch, rest) => some (ch, { s with gen := rest })

/-! Supporting lemmas. -/

theorem concatAll_append (a b : List String) :
    concatAll (a ++ b) = concatAll a ++ concatAll b := by
  induction a with
  | nil => simp [concatAll]
  | cons x xs ih => simp [concatAll, ih, String.append_assoc]

theorem concatAll_eq_empty (l : List String) (h : ∀ x ∈ l, x = "") :
    concatAll l = "" := by
  induction l with
  | nil => rfl
  | cons x xs ih =>
    have hx : x = "" := h x (List.mem_cons_self x xs)
    have hxs : concatAll xs = "" := ih (fun y hy => h y (List.mem_cons_of_mem x hy))
    simp [concatAll, hx, hxs]

theorem dget_append (a b : PyDict) (k : String) :
    dget (a ++ b) k = firstSome (dget b k) (dget a k) := by
  induction a with
  | nil => cases h : dget b k <;> simp [dget, firstSome, h]
  | cons e a ih =>
    obtain ⟨k0, v0⟩ := e
    cases h : dget b k <;> cases h2 : dget a k <;>
      simp [dget, List.cons_append, ih, firstSome, h, h2]

theorem truthy_false_iff (s : String) : truthy s = false ↔ s = "" := by
  simp [truthy]

theorem buffering_loop_rest_le (size : Nat) (l : List String) :
    ∀ (buf : List String) (c : Nat) (ch : String) (rest : List String),
    buffering_loop size l buf c = some (ch, rest) → rest.length ≤ l.length := by
  induction l with
  | nil =>
    intro buf c ch rest h
    simp only [buffering_loop] at h
    split at h
    · simp at h
    · simp only [Option.some.injEq, Prod.mk.injEq] at h
      simp [← h.2]
  | cons x xs ih =>
    intro buf c ch rest h
    simp only [buffering_loop] at h
    split at h
    · split at h
      · simp only [Option.some.injEq, Prod.mk.injEq] at h
        simp [← h.2, Nat.le_succ_of_le]
      · exact Nat.le_succ_of_le (ih _ _ _ _ h)
    · split at h
      · simp only [Option.some.injEq, Prod.mk.injEq] at h
        simp [← h.2, Nat.le_succ_of_le]
      · exact Nat.le_succ_of_le (ih _ _ _ _ h)

theorem buffering_loop_join (size : Nat) (l : List String) :
    ∀ (buf : List String) (c : Nat) (ch : String) (rest : List String),
    buffering_loop size l buf c = some (ch, rest) →
    concatAll buf.reverse ++ concatAll l = ch ++ concatAll rest := by
  induction l with
  | nil =>
    intro buf c ch rest h
    simp only [buffering_loop] at h
    split at h
    · simp at h
    · simp only [Option.some.injEq, Prod.mk.injEq] at h
      simp [← h.1, ← h.2, concatAll]
  | cons x xs ih =>
    intro buf c ch rest h
    simp only [buffering_loop] at h
    split at h
    · split at h
      · simp only [Option.some.injEq, Prod.mk.injEq] at h
        rw [← h.1, ← h.2]
        simp [concatAll, concatAll_append, String.append_assoc,
          String.append_empty]
      · have := ih (x :: buf) (c + 1) ch rest h
        rw [← this]
        simp [concatAll, concatAll_append, String.append_assoc,
          String.append_empty]
    · rename_i ht
      have hx : x = "" := by simpa [truthy] using ht
      split at h
      · simp only [Option.some.injEq, Prod.mk.injEq] at h
        rw [← h.1, ← h.2]
        simp [concatAll, hx]
      · have := ih buf c ch rest h
        rw [← this]
        simp [concatAll, hx]

theorem buffering_loop_none (size : Nat) (l : List String) :
    ∀ (buf : List String) (c : Nat),
    buffering_loop size l buf c = none → c = 0 ∧ ∀ x ∈ l, x = "" := by
  induction l with
  | nil =>
    intro buf c h
    simp only [buffering_loop] at h
    split at h
    · simp_all
    · simp at h
  | cons x xs ih =>
    intro buf c h
    simp only [buffering_loop] at h
    split at h
    · split at h
      · simp at h
      · exact absurd (ih _ _ h).1 (by simp)
    · rename_i ht
      have hx : x = "" := by simpa [truthy] using ht
      split at h
      · simp at h
      · obtain ⟨hc, hall⟩ := ih _ _ h
        exact ⟨hc, by simpa [hx] using hall⟩

theorem buffering_loop_all_empty (size : Nat) (hs : 1 ≤ size) (l : List String) :
    ∀ (buf : List String), (∀ x ∈ l, x = "") → buffering_loop size l buf 0 = none := by
  induction l with
  | nil => intro buf _; simp [buffering_loop]
  | cons x xs ih =>
    intro buf hall
    have hx : x = "" := hall x (List.mem_cons_self x xs)
    have hxs : ∀ y ∈ xs, y = "" := fun y hy => hall y (List.mem_cons_of_mem x hy)
    have ht : truthy x = false := (truthy_false_iff x).mpr hx
    simp only [buffering_loop]
    split
    · rename_i htr
      rw [ht] at htr
      exact absurd htr (by simp)
    · split
      · rename_i hsz
        exact absurd hsz (by omega)
      · exact ih buf hxs

theorem buffering_loop_some_spec (size : Nat) (l : List String) :
    ∀ (buf : List String) (ch : String) (rest : List String),
    buf.length < size →
    buffering_loop size l buf buf.length = some (ch, rest) →
    ∃ p, l = p ++ rest ∧
      ch = concatAll (buf.reverse ++ p.filter truthy) ∧
      (buf.length + (p.filter truthy).length = size ∨ rest = []) := by
  induction l with
  | nil =>
    intro buf ch rest hlt h
    simp only [buffering_loop] at h
    split at h
    · simp at h
    · simp only [Option.some.injEq, Prod.mk.injEq] at h
      exact ⟨[], by simp [← h.2], by simp [← h.1], Or.inr h.2.symm⟩
  | cons x xs ih =>
    intro buf ch rest hlt h
    simp only [buffering_loop] at h
    split at h
    · rename_i ht
      split at h
      · rename_i hstop
        simp only [Option.some.injEq, Prod.mk.injEq] at h
        refine ⟨[x], by simp [← h.2], ?_, Or.inl ?_⟩
        · simp [← h.1, List.filter, ht]
        · simp only [List.filter, ht, List.length_cons, List.length_nil]
          omega
      · rename_i hstop
        have h' : buffering_loop size xs (x :: buf) (x :: buf).length
            = some (ch, rest) := by simpa using h
        obtain ⟨p, hp1, hp2, hp3⟩ :=
          ih (x :: buf) ch rest (by simp only [List.length_cons]; omega) h'
        refine ⟨x :: p, by simp [hp1], ?_, ?_⟩
        · simp only [hp2, List.reverse_cons, List.filter, ht]
          simp [List.append_assoc]
        · rcases hp3 with h3 | h3
          · left
            simp only [List.filter, ht, List.length_cons] at h3 ⊢
            omega
          · exact Or.inr h3
    · rename_i ht
      have htf : truthy x = false := by
        cases hq : truthy x with
        | false => rfl
        | true => exact absurd hq ht
      split at h
      · rename_i hstop
        exact absurd hstop (by omega)
      · obtain ⟨p, hp1, hp2, hp3⟩ := ih buf ch rest hlt h
        refine ⟨x :: p, by simp [hp1], ?_, ?_⟩
        · simp [hp2, List.filter, htf]
        · simpa [List.filter, htf] using hp3

theorem buffering_next_cons_lt (size : Nat) (x : String) (xs : List String)
    (ch : String) (rest : List String)
    (h : buffering_next size (x :: xs) = some (ch, rest)) :
    rest.length < xs.length + 1 := by
  simp only [buffering_next, buffering_loop] at h
  split at h
  · split at h
    · simp only [Option.some.injEq, Prod.mk.injEq] at h
      simp [← h.2]
    · exact Nat.lt_succ_of_le (buffering_loop_rest_le size xs _ _ _ _ h)
  · split at h
    · simp only [Option.some.injEq, Prod.mk.injEq] at h
      simp [← h.2]
    · exact Nat.lt_succ_of_le (buffering_loop_rest_le size xs _ _ _ _ h)

theorem nextPull_gen_lt (s : TemplateStream) (ch : String) (s' : TemplateStream)
    (h : s.nextPull = some (ch, s')) : s'.gen.length < s.gen.length := by
  obtain ⟨gen, b, pull⟩ := s
  cases pull with
  | direct =>
    cases gen with
    | nil => simp [TemplateStream.nextPull] at h
    | cons x xs =>
      simp only [TemplateStream.nextPull, Option.some.injEq, Prod.mk.injEq] at h
      simp [← h.2]
  | buffering size =>
    simp only [TemplateStream.nextPull] at h
    cases hb : buffering_next size gen with
    | none => rw [hb] at h; simp at h
    | some pr =>
      obtain ⟨ch0, rest⟩ := pr
      rw [hb] at h
      simp only [Option.some.injEq, Prod.mk.injEq] at h
      cases gen with
      | nil => simp [buffering_next, buffering_loop] at hb
      | cons x xs =>
        have := buffering_next_cons_lt size x xs ch0 rest hb
        simp only [← h.2]
        simpa using this

/-- Pull the stream until `StopIteration`, collecting every yielded fragment:
the full output sequence an iterating consumer observes. -/
def TemplateStream.drain (s : TemplateStream) : List String :=
  match h : s.nextPull with
  | none => []
  | some (ch, s') =>
    have : s'.gen.length < s.gen.length := nextPull_gen_lt s ch s' h
    ch :: s'.drain
termination_by s.gen.length

theorem drain_eq_nil (s : TemplateStream) (h : s.nextPull = none) :
    s.drain = [] := by
  unfold TemplateStream.drain
  split
  · rfl
  · rename_i ch s' h'
    rw [h] at h'
    exact absurd h' (by simp)

theorem drain_eq_cons (s : TemplateStream) (ch : String) (s' : TemplateStream)
    (h : s.nextPull = some (ch, s')) : s.drain = ch :: s'.drain := by
  conv_lhs => rw [TemplateStream.drain.eq_def]
  split
  · rename_i h'
    rw [h] at h'
    exact absurd h' (by simp)
  · rename_i ch0 s0 h'
    rw [h] at h'
    simp only [Option.some.injEq, Prod.mk.injEq] at h'
    rw [h'.1, h'.2]

theorem drain_direct (gen : List String) (b : Bool) :
    TemplateStream.drain ⟨gen, b, .direct⟩ = gen := by
  induction gen with
  | nil => exact drain_eq_nil _ rfl
  | cons x xs ih =>
    rw [drain_eq_cons ⟨x :: xs, b, .direct⟩ x ⟨xs, b, .direct⟩ rfl, ih]

theorem drain_buffering_join (size : Nat) (n : Nat) :
    ∀ (gen : List String) (b : Bool), gen.length ≤ n →
    concatAll (TemplateStream.drain ⟨gen, b, .buffering size⟩) = concatAll gen := by
  induction n with
  | zero =>
    intro gen b hlen
    have hg : gen = [] := List.length_eq_zero.mp (Nat.le_zero.mp hlen)
    subst hg
    rw [drain_eq_nil _ (by simp [TemplateStream.nextPull, buffering_next, buffering_loop])]
  | succ n ih =>
    intro gen b hlen
    cases hb : buffering_next size gen with
    | none =>
      rw [drain_eq_nil _ (by simp [TemplateStream.nextPull, hb])]
      obtain ⟨-, hall⟩ := buffering_loop_none size gen [] 0 hb
      simp [concatAll, concatAll_eq_empty gen hall]
    | some pr =>
      obtain ⟨ch, rest⟩ := pr
      have hnp : TemplateStream.nextPull ⟨gen, b, .buffering size⟩
          = some (ch, ⟨rest, b, .buffering size⟩) := by
        simp [TemplateStream.nextPull, hb]
      rw [drain_eq_cons _ ch _ hnp]
      have hlt : rest.length < gen.length := by
        have := nextPull_gen_lt _ _ _ hnp
        simpa using this
      have hrec := ih rest b (by omega)
      have hjoin := buffering_loop_join size gen [] 0 ch rest hb
      simp only [List.reverse_nil, concatAll, String.empty_append] at hjoin
      simp [concatAll, hrec, hjoin]

/-! The claims. -/

/-- C1: `Environment.subscribe` first attempts attribute-style access of the
key on the value; if that raises, it attempts keyed/indexed access; if both
raise, it returns `Undefined(value, key)`.  `subscribe` is a total function
into `Value`, so this path never propagates an error to the caller: for every
value and key exactly one of the three outcomes below obtains. -/
theorem subscribe_fallback_chain (env : Environment) (v : Value) (k : Key) :
    (∃ r, getattr v k.toStr = .ok r ∧ env.subscribe v k = r) ∨
    (∃ e r, getattr v k.toStr = .error e ∧ getitem v k = .ok r ∧
      env.subscribe v k = r) ∨
    (∃ e e', getattr v k.toStr = .error e ∧ getitem v k = .error e' ∧
      env.subscribe v k = Value.undef v k) := by
  cases h1 : getattr v k.toStr with
  | ok r => exact Or.inl ⟨r, rfl, by simp [Environment.subscribe, h1]⟩
  | error e =>
    cases h2 : getitem v k with
    | ok r =>
      exact Or.inr (Or.inl ⟨e, r, rfl, rfl, by simp [Environment.subscribe, h1, h2]⟩)
    | error e' =>
      exact Or.inr (Or.inr ⟨e, e', rfl, rfl, by simp [Environment.subscribe, h1, h2]⟩)

/-- C2: with the optimizer enabled, call-time locals sharing a name with the
template globals make `generate` raise the shadowing `AssertionError` (the
spec's ConfigurationError); the error is produced for every root routine
before it runs, with no fragment output.  The identical call against the
environment with `optimized = false` succeeds, and the assembled context
observes the local's value for every name bound in the locals. -/
theorem generate_shadowing_check (eg tglobals locals : PyDict) (hl : Bool)
    (rootFrags : PyDict → List String)
    (hov : keysOverlap locals tglobals = true) :
    (Template.generate ⟨⟨true, eg, hl⟩, tglobals, rootFrags⟩ locals
      = .error .assertionError) ∧
    (Template.generate ⟨⟨false, eg, hl⟩, tglobals, rootFrags⟩ locals
      = .ok ((rootFrags (Template.assembleContext
          ⟨⟨false, eg, hl⟩, tglobals, rootFrags⟩ locals)).map
          YieldItem.fragment)) ∧
    (∀ n v, dget locals n = some v →
      dget (Template.assembleContext
        ⟨⟨false, eg, hl⟩, tglobals, rootFrags⟩ locals) n = some v) := by
  refine ⟨?_, ?_, ?_⟩
  · simp [Template.generate, hov]
  · simp [Template.generate, Template.root_render_func]
  · intro n v hv
    simp [Template.assembleContext, dupdate, dget_append, firstSome, hv]

/-- C3: enabling buffering with any size ≥ 2 preserves content: the
concatenation of all fragments the buffered stream yields equals the
concatenation of the raw unbuffered sequence — buffering changes chunk
boundaries only, never content or order. -/
theorem buffering_preserves_content (s : TemplateStream) (size : Nat)
    (hs : 2 ≤ size) :
    concatAll ((s.enable_buffering size).2.drain) =
    concatAll (s.disable_buffering.drain) := by
  obtain ⟨gen, b, pull⟩ := s
  have h2 : ¬ size ≤ 1 := by omega
  simp only [TemplateStream.enable_buffering, if_neg h2,
    TemplateStream.disable_buffering]
  rw [drain_direct]
  exact drain_buffering_join size gen.length gen true le_rfl

/-- C4: `enable_buffering` with `size ≤ 1` (in particular 0 and 1) raises
`ValueError` (the spec's ConfigurationError) and leaves the stream state —
the `buffered` flag and the active pull function included — exactly as it
was before the call. -/
theorem enable_buffering_rejects_small (s : TemplateStream) (size : Nat)
    (h : size ≤ 1) :
    s.enable_buffering size = (Except.error StreamError.valueError, s) := by
  simp [TemplateStream.enable_buffering, h]

/-- C5: one pull from a buffered stream with size ≥ 2 skips zero-length
upstream fragments, accumulates non-empty ones until `size` of them are
collected or the upstream exhausts, and yields their concatenation as one
fragment; the pull raises `StopIteration` — terminating the stream with no
empty fragment synthesized — exactly when zero fragments were accumulated,
i.e. when every remaining upstream fragment is zero-length. -/
theorem buffered_pull_spec (gen : List String) (b : Bool) (size : Nat)
    (hs : 2 ≤ size) :
    (TemplateStream.nextPull ⟨gen, b, .buffering size⟩ = none ↔
      ∀ x ∈ gen, x = "") ∧
    (∀ ch s', TemplateStream.nextPull ⟨gen, b, .buffering size⟩ = some (ch, s') →
      s'.buffered = b ∧ s'.pull = .buffering size ∧
      ∃ p, gen = p ++ s'.gen ∧ ch = concatAll (p.filter truthy) ∧
        ((p.filter truthy).length = size ∨ s'.gen = [])) := by
  constructor
  · constructor
    · intro h
      simp only [TemplateStream.nextPull] at h
      cases hb : buffering_next size gen with
      | none => exact (buffering_loop_none size gen [] 0 hb).2
      | some pr =>
        obtain ⟨ch, rest⟩ := pr
        rw [hb] at h
        simp at h
    · intro hall
      simp only [TemplateStream.nextPull, buffering_next]
      rw [buffering_loop_all_empty size (by omega) gen [] hall]
  · intro ch s' h
    simp only [TemplateStream.nextPull] at h
    cases hb : buffering_next size gen with
    | none => rw [hb] at h; simp at h
    | some pr =>
      obtain ⟨ch0, rest⟩ := pr
      rw [hb] at h
      simp only [Option.some.injEq, Prod.mk.injEq] at h
      obtain ⟨h1, h2⟩ := h
      obtain ⟨p, hp1, hp2, hp3⟩ :=
        buffering_loop_some_spec size gen [] ch0 rest
          (by simp only [List.length_nil]; omega) hb
      subst h1
      refine ⟨by rw [← h2], by rw [← h2], p, ?_, ?_, ?_⟩
      · rw [← h2]
        exact hp1
      · simpa using hp2
      · rw [← h2]
        simpa using hp3

/-- C6: `render` returns exactly the concatenation of the full fragment
sequence `generate` produces, and `stream` wraps exactly that sequence in a
fresh unbuffered `TemplateStream`. -/
theorem render_stream_wrap_generate (t : Template) (local_context : PyDict)
    (items : List YieldItem) (h : t.generate local_context = .ok items) :
    t.render local_context = .ok (concatAll (items.map YieldItem.text)) ∧
    t.stream local_context
      = .ok (TemplateStream.init (items.map YieldItem.text)) := by
  constructor <;> simp [Template.render, Template.stream, Except.map, h]

/-- C7: `generate` invokes the root routine, whose first produced item is the
self-reference sentinel, and discards exactly that first item, so the
sequence seen by callers is the root routine's output minus its first item. -/
theorem generate_skips_sentinel (t : Template) (local_context : PyDict)
    (items : List YieldItem) (h : t.generate local_context = .ok items) :
    t.root_render_func (t.assembleContext local_context)
      = YieldItem.streamRef :: items := by
  simp only [Template.generate, Template.root_render_func] at h
  split at h
  · simp at h
  · simp only [Except.ok.injEq] at h
    simp [Template.root_render_func, h]

/-- C8: the rendering context resolves every name with this precedence: the
call-time locals first, then the template globals (laid by `make_globals`
over a copy of the environment globals), then the environment globals. -/
theorem context_precedence (env : Environment) (tglobals locals : PyDict)
    (rootFrags : PyDict → List String) (n : String) :
    dget (Template.assembleContext
      ⟨env, env.make_globals (some tglobals), rootFrags⟩ locals) n =
    firstSome (dget locals n)
      (firstSome (dget tglobals n) (dget env.globals n)) := by
  simp only [Template.assembleContext, Environment.make_globals, dupdate,
    dget_append]

/-- C9: `get_template` on an environment without a loader raises `TypeError`
(the spec's ConfigurationError) for every template name, producing nothing
and never reaching the `loader.load` call. -/
theorem get_template_no_loader (env : Environment) (hl : env.hasLoader = false)
    (name : String) (parent : Option String) (globals : Option PyDict) :
    env.get_template name parent globals = .error .typeError := by
  simp [Environment.get_template, hl]

/-- C10: `subscribe` coerces the key with `str()` only for the attribute
attempt and uses the original, uncoerced key for the item attempt: for an
integer key `i` the attribute table is consulted under the decimal string of
`i`, while the item table is indexed with the integer key itself — so a
string-keyed item entry `str(i)` is not consulted. -/
theorem subscribe_key_coercion (env : Environment) (i : Int)
    (attrs : List (String × Value)) (its : List (Key × Value)) :
    (∀ a, lookupStr attrs (toString i) = some a →
      env.subscribe (Value.obj attrs (some its)) (Key.int i) = a) ∧
    (lookupStr attrs (toString i) = none →
      env.subscribe (Value.obj attrs (some its)) (Key.int i) =
        match lookupKey its (Key.int i) with
        | some b => b
        | none => Value.undef (Value.obj attrs (some its)) (Key.int i)) := by
  constructor
  · intro a ha
    simp [Environment.subscribe, getattr, Key.toStr, ha]
  · intro hn
    simp only [Environment.subscribe, getattr, Key.toStr, hn, getitem]
    cases hk : lookupKey its (Key.int i) <;> simp

/-! Concrete witnesses for the claim theorems that carry hypotheses. -/

/-- Witness for C2 at a template with global `x` shadowed by a local `x`. -/
theorem generate_shadowing_check_witness :
    keysOverlap [("x", Value.obj [] (some []))] [("x", Value.obj [] none)] = true ∧
    ((Template.generate ⟨⟨true, [], false⟩, [("x", Value.obj [] none)],
        fun _ => ["out"]⟩ [("x", Value.obj [] (some []))]
      = .error .assertionError) ∧
    (Template.generate ⟨⟨false, [], false⟩, [("x", Value.obj [] none)],
        fun _ => ["out"]⟩ [("x", Value.obj [] (some []))]
      = .ok ((["out"] : List String).map YieldItem.fragment)) ∧
    (∀ n v, dget [("x", Value.obj [] (some []))] n = some v →
      dget (Template.assembleContext ⟨⟨false, [], false⟩,
        [("x", Value.obj [] none)], fun _ => ["out"]⟩
        [("x", Value.obj [] (some []))]) n = some v)) :=
  ⟨rfl, generate_shadowing_check [] [("x", Value.obj [] none)]
    [("x", Value.obj [] (some []))] false (fun _ => ["out"]) rfl⟩

/-- Witness for C3 at the fragment sequence `["a", "", "b", "c"]`, size 2. -/
theorem buffering_preserves_content_witness :
    2 ≤ 2 ∧
    concatAll (((TemplateStream.init ["a", "", "b", "c"]).enable_buffering 2).2.drain) =
    concatAll ((TemplateStream.init ["a", "", "b", "c"]).disable_buffering.drain) :=
  ⟨by decide, buffering_preserves_content (TemplateStream.init ["a", "", "b", "c"]) 2 (by decide)⟩

/-- Witness for C4 at sizes 0 and 1. -/
theorem enable_buffering_rejects_small_witness :
    ((0 : Nat) ≤ 1 ∧ TemplateStream.enable_buffering ⟨["a"], false, .direct⟩ 0
      = (Except.error StreamError.valueError, ⟨["a"], false, .direct⟩)) ∧
    ((1 : Nat) ≤ 1 ∧ TemplateStream.enable_buffering ⟨["a"], true, .buffering 3⟩ 1
      = (Except.error StreamError.valueError, ⟨["a"], true, .buffering 3⟩)) :=
  ⟨⟨by decide, enable_buffering_rejects_small ⟨["a"], false, .direct⟩ 0 (by decide)⟩,
   ⟨by decide, enable_buffering_rejects_small ⟨["a"], true, .buffering 3⟩ 1 (by decide)⟩⟩

/-- Witness for C5 at the upstream `["", "a", "b", "c"]`, size 2. -/
theorem buffered_pull_spec_witness :
    2 ≤ 2 ∧
    ((TemplateStream.nextPull ⟨["", "a", "b", "c"], true, .buffering 2⟩ = none ↔
      ∀ x ∈ ["", "a", "b", "c"], x = "") ∧
    (∀ ch s', TemplateStream.nextPull ⟨["", "a", "b", "c"], true, .buffering 2⟩
        = some (ch, s') →
      s'.buffered = true ∧ s'.pull = .buffering 2 ∧
      ∃ p, ["", "a", "b", "c"] = p ++ s'.gen ∧
        ch = concatAll (p.filter truthy) ∧
        ((p.filter truthy).length = 2 ∨ s'.gen = []))) :=
  ⟨by decide, buffered_pull_spec ["", "a", "b", "c"] true 2 (by decide)⟩

/-- Witness for C6 at a two-fragment template. -/
theorem render_stream_wrap_generate_witness :
    Template.generate ⟨⟨true, [], false⟩, [], fun _ => ["a", "b"]⟩ []
      = .ok [YieldItem.fragment "a", YieldItem.fragment "b"] ∧
    (Template.render ⟨⟨true, [], false⟩, [], fun _ => ["a", "b"]⟩ []
      = .ok (concatAll ([YieldItem.fragment "a", YieldItem.fragment "b"].map
          YieldItem.text)) ∧
     Template.stream ⟨⟨true, [], false⟩, [], fun _ => ["a", "b"]⟩ []
      = .ok (TemplateStream.init ([YieldItem.fragment "a",
          YieldItem.fragment "b"].map YieldItem.text))) :=
  ⟨rfl, render_stream_wrap_generate ⟨⟨true, [], false⟩, [], fun _ => ["a", "b"]⟩
    [] [YieldItem.fragment "a", YieldItem.fragment "b"] rfl⟩

/-- Witness for C7 at the same two-fragment template. -/
theorem generate_skips_sentinel_witness :
    Template.generate ⟨⟨true, [], false⟩, [], fun _ => ["a", "b"]⟩ []
      = .ok [YieldItem.fragment "a", YieldItem.fragment "b"] ∧
    Template.root_render_func ⟨⟨true, [], false⟩, [], fun _ => ["a", "b"]⟩
        (Template.assembleContext ⟨⟨true, [], false⟩, [], fun _ => ["a", "b"]⟩ [])
      = YieldItem.streamRef ::
          [YieldItem.fragment "a", YieldItem.fragment "b"] :=
  ⟨rfl, generate_skips_sentinel ⟨⟨true, [], false⟩, [], fun _ => ["a", "b"]⟩
    [] [YieldItem.fragment "a", YieldItem.fragment "b"] rfl⟩

/-- Witness for C9 at a loaderless environment. -/
theorem get_template_no_loader_witness :
    (Environment.mk true [] false).hasLoader = false ∧
    Environment.get_template ⟨true, [], false⟩ "index" none none
      = .error .typeError :=
  ⟨rfl, get_template_no_loader ⟨true, [], false⟩ rfl "index" none none⟩

/-- Witness for C10: integer key 1 finds the integer-keyed item entry and not
the string-keyed entry `"1"`. -/
theorem subscribe_key_coercion_witness :
    lookupStr [] (toString (1 : Int)) = none ∧
    Environment.subscribe ⟨true, [], false⟩
      (Value.obj [] (some [(Key.str "1", Value.obj [] none),
        (Key.int 1, Value.obj [] (some []))]))
      (Key.int 1) = Value.obj [] (some []) :=
  ⟨rfl, (subscribe_key_coercion ⟨true, [], false⟩ 1 []
    [(Key.str "1", Value.obj [] none), (Key.int 1, Value.obj [] (some []))]).2 rfl⟩

end Jinja
